import Mathlib

/-!
Shallow embedding of `rxjs-exponential-backoff` (file `exponential-backoff.ts`).

JavaScript numbers are modelled as exact rationals (`ℚ`); the one draw of
`Math.random()` is passed in explicitly as a parameter `u` (the source draws
`u ∈ [0,1)`).  Overflow of `Math.pow` to `Infinity` is modelled separately
(`JSNum`, `calculateExponentialBackoffE`) for the numerical-overflow claim.
-/

namespace Backoff

/-- Options record `BackoffOptions`, with the defaults destructured in
`calculateExponentialBackoff` (`baseDelayMs = 1000`, `maxDelayMs = 5000`,
`jitterFactor = 0.2`). -/
structure BackoffOptions where
  baseDelayMs : ℚ := 1000
  maxDelayMs : ℚ := 5000
  jitterFactor : ℚ := 2/10
  deriving DecidableEq, Repr

/-- Result class `BackoffResult`: the six public readonly fields. -/
structure BackoffResult where
  delayMs : ℚ
  rawDelayMs : ℚ
  cappedDelayMs : ℚ
  jitterOffsetMs : ℚ
  wasCapped : Bool
  retryAttempt : ℤ
  deriving DecidableEq, Repr

/-- The `BackoffResult` constructor: it clamps `delayMs` with
`Math.max(0, delayMs)` and derives `wasCapped = rawDelayMs > cappedDelayMs`;
the other arguments are stored as passed. -/
def BackoffResult.make (delayMs rawDelayMs cappedDelayMs jitterOffsetMs : ℚ)
    (retryAttempt : ℤ) : BackoffResult where
  delayMs := max 0 delayMs
  rawDelayMs := rawDelayMs
  cappedDelayMs := cappedDelayMs
  jitterOffsetMs := jitterOffsetMs
  wasCapped := decide (cappedDelayMs < rawDelayMs)
  retryAttempt := retryAttempt

/-- The function `calculateExponentialBackoff(retryAttempt, options)`.  The
single `Math.random()` draw is the extra argument `u`.  The exponent
`normalizedAttempt - 1` is never negative because `normalizedAttempt =
Math.max(1, Math.floor(retryAttempt)) ≥ 1`, so `.toNat` is exact. -/
def calculateExponentialBackoff (retryAttempt : ℚ) (options : BackoffOptions)
    (u : ℚ) : BackoffResult :=
  let normalizedAttempt : ℤ := max 1 ⌊retryAttempt⌋
  let rawDelayMs : ℚ := options.baseDelayMs * 2 ^ (normalizedAttempt - 1).toNat
  let cappedDelayMs : ℚ := min rawDelayMs options.maxDelayMs
  if options.jitterFactor > 0 then
    let jitterRangeMs := cappedDelayMs * |options.jitterFactor|
    let jitterOffsetMs := (u * 2 - 1) * jitterRangeMs
    let finalDelayMs := max 0 (cappedDelayMs + jitterOffsetMs)
    BackoffResult.make finalDelayMs rawDelayMs cappedDelayMs jitterOffsetMs
      normalizedAttempt
  else
    BackoffResult.make cappedDelayMs rawDelayMs cappedDelayMs 0 normalizedAttempt

/-- A JavaScript double that is either finite (modelled exactly as a rational)
or has overflowed to `+Infinity`, as `Math.pow(2, k)` does for `k ≥ 1024`. -/
inductive JSNum where
  | fin (q : ℚ)
  | inf
  deriving DecidableEq, Repr

/-- Models `Math.min(x, m)` where the second argument `m` (here `maxDelayMs`)
is a finite number: `Math.min(Infinity, m) = m`. -/
def JSNum.minFin : JSNum → ℚ → ℚ
  | .fin q, m => min q m
  | .inf, m => m

/-- Comparison `x > c` for a possibly-infinite `x` against a finite `c`:
`Infinity > c` is true. -/
def JSNum.gtFin : JSNum → ℚ → Bool
  | .fin q, c => decide (c < q)
  | .inf, _ => true

/-- Models `baseDelayMs * Math.pow(2, k)` in IEEE doubles for a positive
`baseDelayMs`: `Math.pow(2, k)` is exact up to `k = 1023` and overflows to
`Infinity` from `k = 1024` on, and a positive finite number times `Infinity`
is `Infinity`.  (Multiplying by a power of two is exact in binary floating
point, so the finite branch is exact.) -/
def rawDelayE (baseDelayMs : ℚ) (k : ℕ) : JSNum :=
  if 1024 ≤ k then .inf else .fin (baseDelayMs * 2 ^ k)

/-- The result record of the overflow-aware calculation: `rawDelayMs` may be
`Infinity`; every other field is finite because the cap against the finite
`maxDelayMs` makes `cappedDelayMs` finite before jitter is applied. -/
structure BackoffResultE where
  delayMs : ℚ
  rawDelayMs : JSNum
  cappedDelayMs : ℚ
  jitterOffsetMs : ℚ
  wasCapped : Bool
  retryAttempt : ℤ
  deriving DecidableEq, Repr

/-- Variant of `calculateExponentialBackoff` with the IEEE overflow of
`baseDelayMs * Math.pow(2, normalizedAttempt - 1)` modelled (for positive
`baseDelayMs`): the raw delay is a `JSNum`, the cap is `Math.min` against the
finite `maxDelayMs`, and `wasCapped` compares the possibly-infinite raw value
against the finite capped one. -/
def calculateExponentialBackoffE (retryAttempt : ℚ) (options : BackoffOptions)
    (u : ℚ) : BackoffResultE :=
  let normalizedAttempt : ℤ := max 1 ⌊retryAttempt⌋
  let rawDelayMs : JSNum := rawDelayE options.baseDelayMs (normalizedAttempt - 1).toNat
  let cappedDelayMs : ℚ := rawDelayMs.minFin options.maxDelayMs
  let jo : ℚ × ℚ :=
    if options.jitterFactor > 0 then
      let jitterRangeMs := cappedDelayMs * |options.jitterFactor|
      let jitterOffsetMs := (u * 2 - 1) * jitterRangeMs
      (jitterOffsetMs, max 0 (cappedDelayMs + jitterOffsetMs))
    else (0, cappedDelayMs)
  { delayMs := max 0 jo.2
    rawDelayMs := rawDelayMs
    cappedDelayMs := cappedDelayMs
    jitterOffsetMs := jo.1
    wasCapped := rawDelayMs.gtFin cappedDelayMs
    retryAttempt := normalizedAttempt }

/-- State of the `RetryManager` class: the private `_attemptCount` (starts at
0) and the resolved required options. -/
structure RetryManager where
  attemptCount : ℕ
  options : BackoffOptions
  deriving DecidableEq, Repr

/-- Constructor `new RetryManager(options)`: counter starts at 0. -/
def RetryManager.create (options : BackoffOptions) : RetryManager :=
  { attemptCount := 0, options := options }

/-- Method `waitForNextRetry()`: increments `_attemptCount`, computes the
backoff for the new count, suspends for `delayMs` (time is not modelled) and
returns the result.  The randomness draw `u` is explicit. -/
def RetryManager.waitForNextRetry (m : RetryManager) (u : ℚ) :
    BackoffResult × RetryManager :=
  let n := m.attemptCount + 1
  (calculateExponentialBackoff (n : ℚ) m.options u, { m with attemptCount := n })

/-- Method `previewNextDelay()`: computes for `_attemptCount + 1` without
mutating. -/
def RetryManager.previewNextDelay (m : RetryManager) (u : ℚ) : BackoffResult :=
  calculateExponentialBackoff ((m.attemptCount + 1 : ℕ) : ℚ) m.options u

/-- Method `reset()`: zeroes the counter. -/
def RetryManager.reset (m : RetryManager) : RetryManager :=
  { m with attemptCount := 0 }

/-- Unfolding lemma: with a non-positive jitter factor the jitter branch is
skipped. -/
lemma calc_eq_of_jitter_nonpos (opts : BackoffOptions)
    (hf : opts.jitterFactor ≤ 0) (a u : ℚ) :
    calculateExponentialBackoff a opts u =
      { delayMs := max 0 (min (opts.baseDelayMs * 2 ^ (max 1 ⌊a⌋ - 1).toNat) opts.maxDelayMs)
        rawDelayMs := opts.baseDelayMs * 2 ^ (max 1 ⌊a⌋ - 1).toNat
        cappedDelayMs := min (opts.baseDelayMs * 2 ^ (max 1 ⌊a⌋ - 1).toNat) opts.maxDelayMs
        jitterOffsetMs := 0
        wasCapped := decide (min (opts.baseDelayMs * 2 ^ (max 1 ⌊a⌋ - 1).toNat) opts.maxDelayMs
          < opts.baseDelayMs * 2 ^ (max 1 ⌊a⌋ - 1).toNat)
        retryAttempt := max 1 ⌊a⌋ } := by
  unfold calculateExponentialBackoff BackoffResult.make
  rw [if_neg (not_lt.mpr hf)]

/-- Unfolding lemma: with a positive jitter factor the jitter branch runs. -/
lemma calc_eq_of_jitter_pos (opts : BackoffOptions)
    (hf : 0 < opts.jitterFactor) (a u : ℚ) :
    calculateExponentialBackoff a opts u =
      { delayMs := max 0 (max 0 (min (opts.baseDelayMs * 2 ^ (max 1 ⌊a⌋ - 1).toNat) opts.maxDelayMs
          + (u * 2 - 1) * (min (opts.baseDelayMs * 2 ^ (max 1 ⌊a⌋ - 1).toNat) opts.maxDelayMs * |opts.jitterFactor|)))
        rawDelayMs := opts.baseDelayMs * 2 ^ (max 1 ⌊a⌋ - 1).toNat
        cappedDelayMs := min (opts.baseDelayMs * 2 ^ (max 1 ⌊a⌋ - 1).toNat) opts.maxDelayMs
        jitterOffsetMs := (u * 2 - 1) * (min (opts.baseDelayMs * 2 ^ (max 1 ⌊a⌋ - 1).toNat) opts.maxDelayMs * |opts.jitterFactor|)
        wasCapped := decide (min (opts.baseDelayMs * 2 ^ (max 1 ⌊a⌋ - 1).toNat) opts.maxDelayMs
          < opts.baseDelayMs * 2 ^ (max 1 ⌊a⌋ - 1).toNat)
        retryAttempt := max 1 ⌊a⌋ } := by
  unfold calculateExponentialBackoff BackoffResult.make
  rw [if_pos hf]

/-- Helper: the retry attempt recorded in the result is the normalized
attempt `max 1 ⌊a⌋`. -/
lemma retryAttempt_eq (a : ℚ) (opts : BackoffOptions) (u : ℚ) :
    (calculateExponentialBackoff a opts u).retryAttempt = max 1 ⌊a⌋ := by
  unfold calculateExponentialBackoff BackoffResult.make
  split <;> rfl

/-- Helper: the final delay is never negative (the constructor clamps). -/
lemma delayMs_nonneg (a : ℚ) (opts : BackoffOptions) (u : ℚ) :
    0 ≤ (calculateExponentialBackoff a opts u).delayMs := by
  unfold calculateExponentialBackoff BackoffResult.make
  split <;> simp

/-- C1: with `jitterFactor = 0` and a nonnegative (per the data model,
positive) `baseDelayMs` and `maxDelayMs`, for every integer attempt `a ≥ 1`
the final delay is exactly `min(baseDelayMs * 2 ^ (a - 1), maxDelayMs)`;
attempt 1 yields exactly `baseDelayMs` (whenever `baseDelayMs ≤ maxDelayMs`,
without which the cap fires at attempt 1 already); and each subsequent
attempt doubles the previous raw delay. -/
theorem delay_formula_of_jitter_zero (opts : BackoffOptions)
    (hj : opts.jitterFactor = 0) (hb : 0 ≤ opts.baseDelayMs)
    (hm : 0 ≤ opts.maxDelayMs) (u : ℚ) :
    (∀ a : ℤ, 1 ≤ a →
      (calculateExponentialBackoff (a : ℚ) opts u).delayMs
        = min (opts.baseDelayMs * 2 ^ (a - 1).toNat) opts.maxDelayMs)
    ∧ (opts.baseDelayMs ≤ opts.maxDelayMs →
        (calculateExponentialBackoff 1 opts u).delayMs = opts.baseDelayMs)
    ∧ (∀ a : ℤ, 1 ≤ a →
        (calculateExponentialBackoff ((a : ℚ) + 1) opts u).rawDelayMs
          = 2 * (calculateExponentialBackoff (a : ℚ) opts u).rawDelayMs) := by
  have hf : opts.jitterFactor ≤ 0 := le_of_eq hj
  refine ⟨fun a ha => ?_, fun hbm => ?_, fun a ha => ?_⟩
  · rw [calc_eq_of_jitter_nonpos opts hf]
    have h1 : max 1 ⌊(a : ℚ)⌋ = a := by
      rw [Int.floor_intCast]; exact max_eq_right ha
    rw [h1]
    exact max_eq_right (le_min (mul_nonneg hb (by positivity)) hm)
  · rw [calc_eq_of_jitter_nonpos opts hf]
    have h1 : max 1 ⌊(1 : ℚ)⌋ = 1 := by rw [Int.floor_one]; exact max_self 1
    rw [h1]
    norm_num
    rw [min_eq_left hbm]
    exact max_eq_right hb
  · rw [calc_eq_of_jitter_nonpos opts hf, calc_eq_of_jitter_nonpos opts hf]
    have h1 : max 1 ⌊(a : ℚ)⌋ = a := by
      rw [Int.floor_intCast]; exact max_eq_right ha
    have h2 : max 1 ⌊(a : ℚ) + 1⌋ = a + 1 := by
      rw [show ((a : ℚ) + 1) = ((a + 1 : ℤ) : ℚ) by push_cast; ring,
        Int.floor_intCast]
      exact max_eq_right (by omega)
    rw [h1, h2]
    have h3 : (a + 1 - 1).toNat = (a - 1).toNat + 1 := by omega
    rw [h3, pow_succ]
    ring

/-- C1 witness: the formula theorem instantiated at the default options with
`jitterFactor = 0` and `u = 0`. -/
theorem delay_formula_of_jitter_zero_witness :
    (∀ a : ℤ, 1 ≤ a →
      (calculateExponentialBackoff (a : ℚ) { jitterFactor := 0 } 0).delayMs
        = min ((1000 : ℚ) * 2 ^ (a - 1).toNat) 5000)
    ∧ ((1000 : ℚ) ≤ 5000 →
        (calculateExponentialBackoff 1 { jitterFactor := 0 } 0).delayMs = 1000)
    ∧ (∀ a : ℤ, 1 ≤ a →
        (calculateExponentialBackoff ((a : ℚ) + 1) { jitterFactor := 0 } 0).rawDelayMs
          = 2 * (calculateExponentialBackoff (a : ℚ) { jitterFactor := 0 } 0).rawDelayMs) :=
  delay_formula_of_jitter_zero { jitterFactor := 0 } rfl (by norm_num) (by norm_num) 0

/-- C2 counterexample: the fractional attempt `5/2` is floored to 2, not
treated as attempt 1, so its result differs from the attempt-1 result (the
`retryAttempt` fields are 2 and 1). -/
theorem fractional_attempt_counterexample :
    ¬ (calculateExponentialBackoff (5/2) { jitterFactor := 0 } 0
        = calculateExponentialBackoff 1 { jitterFactor := 0 } 0) := by
  intro h
  have h2 := congrArg BackoffResult.retryAttempt h
  rw [retryAttempt_eq, retryAttempt_eq] at h2
  have h3 : ⌊(5/2 : ℚ)⌋ = 2 := by
    rw [Int.floor_eq_iff] ; norm_num
  rw [h3, Int.floor_one] at h2
  norm_num at h2

/-- C2 (amended): every attempt value is normalized to
`max(1, floor(attempt))` — the result (in all six fields) is identical to
calling with that normalized attempt; in particular every non-positive
attempt is treated as attempt 1.  Non-integer attempts are floored, not sent
to 1. -/
theorem attempt_normalization (a : ℚ) (opts : BackoffOptions) (u : ℚ) :
    calculateExponentialBackoff a opts u
      = calculateExponentialBackoff ((max 1 ⌊a⌋ : ℤ) : ℚ) opts u
    ∧ (a ≤ 0 → calculateExponentialBackoff a opts u
        = calculateExponentialBackoff 1 opts u) := by
  have key : ∀ b : ℚ, max 1 ⌊b⌋ = max 1 ⌊a⌋ →
      calculateExponentialBackoff a opts u = calculateExponentialBackoff b opts u := by
    intro b hmax
    unfold calculateExponentialBackoff BackoffResult.make
    rw [hmax]
  constructor
  · refine key _ ?_
    rw [Int.floor_intCast]
    exact max_eq_right (le_max_left 1 ⌊a⌋)
  · intro ha
    refine key 1 ?_
    rw [Int.floor_one]
    have h1 : ⌊a⌋ ≤ 0 := by
      have := Int.floor_le_floor (α := ℚ) ha
      rwa [Int.floor_zero] at this
    rw [max_self]
    exact (max_eq_left (by omega)).symm

/-- C2 witness: the normalization theorem applied at the concrete attempt
`-3`, showing it is treated as attempt 1. -/
theorem attempt_normalization_witness :
    calculateExponentialBackoff (-3) ({} : BackoffOptions) 0
      = calculateExponentialBackoff 1 ({} : BackoffOptions) 0 :=
  (attempt_normalization (-3) {} 0).2 (by norm_num)

/-- C3: for every attempt, every configuration (no sign restrictions at all)
and every random draw, the returned `delayMs` is nonnegative. -/
theorem finalDelay_nonneg (a : ℚ) (opts : BackoffOptions) (u : ℚ) :
    0 ≤ (calculateExponentialBackoff a opts u).delayMs :=
  delayMs_nonneg a opts u

/-- C4: with a positive jitter factor `f`, nonnegative base and max delays,
and a draw `u ∈ [0,1)`: the jitter offset equals
`(2u - 1) * cappedDelayMs * |f|`, the final delay is
`max 0 (cappedDelayMs + jitterOffsetMs)`, and it lies within
`[max 0 (cappedDelayMs * (1 - f)), cappedDelayMs * (1 + f)]`. -/
theorem jitter_offset_and_bounds (opts : BackoffOptions)
    (hf : 0 < opts.jitterFactor) (hb : 0 ≤ opts.baseDelayMs)
    (hm : 0 ≤ opts.maxDelayMs) (a u : ℚ) (hu0 : 0 ≤ u) (hu1 : u < 1) :
    (calculateExponentialBackoff a opts u).jitterOffsetMs
      = (2 * u - 1) * ((calculateExponentialBackoff a opts u).cappedDelayMs * |opts.jitterFactor|)
    ∧ (calculateExponentialBackoff a opts u).delayMs
      = max 0 ((calculateExponentialBackoff a opts u).cappedDelayMs
          + (calculateExponentialBackoff a opts u).jitterOffsetMs)
    ∧ max 0 ((calculateExponentialBackoff a opts u).cappedDelayMs * (1 - opts.jitterFactor))
        ≤ (calculateExponentialBackoff a opts u).delayMs
    ∧ (calculateExponentialBackoff a opts u).delayMs
        ≤ (calculateExponentialBackoff a opts u).cappedDelayMs * (1 + opts.jitterFactor) := by
  rw [calc_eq_of_jitter_pos opts hf]
  dsimp only
  set c : ℚ := min (opts.baseDelayMs * 2 ^ (max 1 ⌊a⌋ - 1).toNat) opts.maxDelayMs with hc
  have hc0 : 0 ≤ c := le_min (mul_nonneg hb (by positivity)) hm
  have habs : |opts.jitterFactor| = opts.jitterFactor := abs_of_pos hf
  rw [habs]
  set f : ℚ := opts.jitterFactor with hfd
  have hcf : 0 ≤ c * f := mul_nonneg hc0 hf.le
  have hcollapse : max 0 (max 0 (c + (u * 2 - 1) * (c * f)))
      = max 0 (c + (u * 2 - 1) * (c * f)) := by
    rw [← max_assoc, max_self]
  refine ⟨by ring, hcollapse, ?_, ?_⟩
  · rw [hcollapse]
    refine max_le_max le_rfl ?_
    nlinarith [mul_nonneg hcf hu0]
  · rw [hcollapse]
    refine max_le ?_ ?_
    · nlinarith
    · nlinarith [mul_nonneg hcf (by linarith : (0:ℚ) ≤ 1 - u)]

/-- C4 witness: the jitter theorem instantiated at the default options
(`jitterFactor = 0.2`), attempt 3 and draw `u = 1/2`. -/
theorem jitter_offset_and_bounds_witness :
    (calculateExponentialBackoff 3 ({} : BackoffOptions) (1/2)).jitterOffsetMs
      = (2 * (1/2) - 1) * ((calculateExponentialBackoff 3 ({} : BackoffOptions) (1/2)).cappedDelayMs * |(({} : BackoffOptions)).jitterFactor|)
    ∧ (calculateExponentialBackoff 3 ({} : BackoffOptions) (1/2)).delayMs
      = max 0 ((calculateExponentialBackoff 3 ({} : BackoffOptions) (1/2)).cappedDelayMs
          + (calculateExponentialBackoff 3 ({} : BackoffOptions) (1/2)).jitterOffsetMs)
    ∧ max 0 ((calculateExponentialBackoff 3 ({} : BackoffOptions) (1/2)).cappedDelayMs * (1 - (({} : BackoffOptions)).jitterFactor))
        ≤ (calculateExponentialBackoff 3 ({} : BackoffOptions) (1/2)).delayMs
    ∧ (calculateExponentialBackoff 3 ({} : BackoffOptions) (1/2)).delayMs
        ≤ (calculateExponentialBackoff 3 ({} : BackoffOptions) (1/2)).cappedDelayMs * (1 + (({} : BackoffOptions)).jitterFactor) :=
  jitter_offset_and_bounds {} (by norm_num [BackoffOptions.jitterFactor])
    (by norm_num [BackoffOptions.baseDelayMs]) (by norm_num [BackoffOptions.maxDelayMs])
    3 (1/2) (by norm_num) (by norm_num)

/-- C5: with a zero or negative jitter factor (and nonnegative base and max
delays, per the data model) the jitter step is skipped: the jitter offset is
0, the final delay equals the capped delay, the output does not depend on the
random draw at all, and `wasCapped` is still `rawDelayMs > cappedDelayMs`. -/
theorem jitter_skipped_of_nonpos (opts : BackoffOptions)
    (hf : opts.jitterFactor ≤ 0) (hb : 0 ≤ opts.baseDelayMs)
    (hm : 0 ≤ opts.maxDelayMs) (a u v : ℚ) :
    (calculateExponentialBackoff a opts u).jitterOffsetMs = 0
    ∧ (calculateExponentialBackoff a opts u).delayMs
        = (calculateExponentialBackoff a opts u).cappedDelayMs
    ∧ calculateExponentialBackoff a opts u = calculateExponentialBackoff a opts v
    ∧ ((calculateExponentialBackoff a opts u).wasCapped = true ↔
        (calculateExponentialBackoff a opts u).cappedDelayMs
          < (calculateExponentialBackoff a opts u).rawDelayMs) := by
  rw [calc_eq_of_jitter_nonpos opts hf, calc_eq_of_jitter_nonpos opts hf]
  dsimp only
  refine ⟨rfl, ?_, rfl, by simp⟩
  exact max_eq_right (le_min (mul_nonneg hb (by positivity)) hm)

/-- C5 witness: the jitter-skipped theorem instantiated with
`jitterFactor = 0`, attempt 2 and two different random draws. -/
theorem jitter_skipped_of_nonpos_witness :
    (calculateExponentialBackoff 2 { jitterFactor := 0 } 0).jitterOffsetMs = 0
    ∧ (calculateExponentialBackoff 2 { jitterFactor := 0 } 0).delayMs
        = (calculateExponentialBackoff 2 { jitterFactor := 0 } 0).cappedDelayMs
    ∧ calculateExponentialBackoff 2 { jitterFactor := 0 } 0
        = calculateExponentialBackoff 2 { jitterFactor := 0 } 1
    ∧ ((calculateExponentialBackoff 2 { jitterFactor := 0 } 0).wasCapped = true ↔
        (calculateExponentialBackoff 2 { jitterFactor := 0 } 0).cappedDelayMs
          < (calculateExponentialBackoff 2 { jitterFactor := 0 } 0).rawDelayMs) :=
  jitter_skipped_of_nonpos { jitterFactor := 0 } le_rfl (by norm_num) (by norm_num) 2 0 1

/-- C6: for every input, `wasCapped` holds iff `rawDelayMs > cappedDelayMs`,
the capped delay is `min rawDelayMs maxDelayMs`, and consequently `wasCapped`
holds iff the raw delay exceeds `maxDelayMs` (no positivity of `baseDelayMs`
is even needed). -/
theorem wasCapped_iff (a : ℚ) (opts : BackoffOptions) (u : ℚ) :
    ((calculateExponentialBackoff a opts u).wasCapped = true ↔
      (calculateExponentialBackoff a opts u).cappedDelayMs
        < (calculateExponentialBackoff a opts u).rawDelayMs)
    ∧ (calculateExponentialBackoff a opts u).cappedDelayMs
        = min (calculateExponentialBackoff a opts u).rawDelayMs opts.maxDelayMs
    ∧ ((calculateExponentialBackoff a opts u).wasCapped = true ↔
        opts.maxDelayMs < (calculateExponentialBackoff a opts u).rawDelayMs) := by
  unfold calculateExponentialBackoff BackoffResult.make
  split <;>
    · dsimp only
      refine ⟨by simp, rfl, ?_⟩
      simp only [decide_eq_true_eq, min_lt_iff, lt_irrefl, false_or]

/-- C7: in the overflow-aware model, any attempt whose floor is at least 1025
makes the raw delay overflow to `Infinity`; capping against the finite
`maxDelayMs` still yields exactly `maxDelayMs`, `wasCapped` is true, and with
jitter disabled the final delay is `maxDelayMs` — the calculation returns
normally rather than failing. -/
theorem overflow_capped_to_max (opts : BackoffOptions)
    (hb : 0 < opts.baseDelayMs) (hm : 0 ≤ opts.maxDelayMs)
    (a u : ℚ) (ha : 1025 ≤ ⌊a⌋) :
    (calculateExponentialBackoffE a opts u).rawDelayMs = JSNum.inf
    ∧ (calculateExponentialBackoffE a opts u).cappedDelayMs = opts.maxDelayMs
    ∧ (calculateExponentialBackoffE a opts u).wasCapped = true
    ∧ (opts.jitterFactor ≤ 0 →
        (calculateExponentialBackoffE a opts u).delayMs = opts.maxDelayMs) := by
  have hmax : max 1 ⌊a⌋ = ⌊a⌋ := max_eq_right (by omega)
  have hk : 1024 ≤ (⌊a⌋ - 1).toNat := by omega
  unfold calculateExponentialBackoffE
  dsimp only
  rw [hmax]
  simp only [rawDelayE, if_pos hk, JSNum.minFin, JSNum.gtFin]
  refine ⟨trivial, trivial, trivial, fun hf => ?_⟩
  rw [if_neg (not_lt.mpr hf)]
  exact max_eq_right hm

/-- C7 witness: the overflow theorem instantiated at attempt 2000 with
`jitterFactor = 0`. -/
theorem overflow_capped_to_max_witness :
    (calculateExponentialBackoffE 2000 { jitterFactor := 0 } 0).rawDelayMs = JSNum.inf
    ∧ (calculateExponentialBackoffE 2000 { jitterFactor := 0 } 0).cappedDelayMs
        = ({ jitterFactor := 0 } : BackoffOptions).maxDelayMs
    ∧ (calculateExponentialBackoffE 2000 { jitterFactor := 0 } 0).wasCapped = true
    ∧ (({ jitterFactor := 0 } : BackoffOptions).jitterFactor ≤ 0 →
        (calculateExponentialBackoffE 2000 { jitterFactor := 0 } 0).delayMs
          = ({ jitterFactor := 0 } : BackoffOptions).maxDelayMs) :=
  overflow_capped_to_max { jitterFactor := 0 } (by norm_num) (by norm_num) 2000 0
    (by rw [show (2000:ℚ) = ((2000:ℤ):ℚ) by norm_num, Int.floor_intCast]; norm_num)

/-- C8: the calculator is total — for every attempt (negative, zero or
fractional included), every configuration and every draw it returns a
`BackoffResult`, whose attempt is normalized to at least 1 and whose delay is
nonnegative. -/
theorem never_fails (a : ℚ) (opts : BackoffOptions) (u : ℚ) :
    ∃ r : BackoffResult, calculateExponentialBackoff a opts u = r
      ∧ 1 ≤ r.retryAttempt ∧ 0 ≤ r.delayMs :=
  ⟨_, rfl, by rw [retryAttempt_eq]; exact le_max_left 1 ⌊a⌋, delayMs_nonneg a opts u⟩

/-- C9: from a fresh `RetryManager`, three successive `waitForNextRetry`
calls return `retryAttempt` 1, 2, 3 and leave the counter at 3; `reset` puts
the counter back to 0 and the next call returns `retryAttempt` 1 again. -/
theorem retry_manager_scenario (opts : BackoffOptions) (u1 u2 u3 u4 : ℚ) :
    ((RetryManager.create opts).waitForNextRetry u1).1.retryAttempt = 1
    ∧ (((RetryManager.create opts).waitForNextRetry u1).2.waitForNextRetry u2).1.retryAttempt = 2
    ∧ ((((RetryManager.create opts).waitForNextRetry u1).2.waitForNextRetry u2).2.waitForNextRetry u3).1.retryAttempt = 3
    ∧ ((((RetryManager.create opts).waitForNextRetry u1).2.waitForNextRetry u2).2.waitForNextRetry u3).2.attemptCount = 3
    ∧ (((((RetryManager.create opts).waitForNextRetry u1).2.waitForNextRetry u2).2.waitForNextRetry u3).2.reset).attemptCount = 0
    ∧ ((((((RetryManager.create opts).waitForNextRetry u1).2.waitForNextRetry u2).2.waitForNextRetry u3).2.reset).waitForNextRetry u4).1.retryAttempt = 1 := by
  simp [RetryManager.create, RetryManager.waitForNextRetry, RetryManager.reset,
    retryAttempt_eq, Int.floor_natCast]

/-- C10: with positive `baseDelayMs` and jitter disabled, the final delay is
monotone non-decreasing in the attempt value, and bounded above by
`max baseDelayMs maxDelayMs`. -/
theorem monotone_and_bounded (opts : BackoffOptions)
    (hb : 0 < opts.baseDelayMs) (hf : opts.jitterFactor ≤ 0)
    (a b : ℚ) (hab : a ≤ b) (u v : ℚ) :
    (calculateExponentialBackoff a opts u).delayMs
      ≤ (calculateExponentialBackoff b opts v).delayMs
    ∧ (calculateExponentialBackoff b opts v).delayMs
      ≤ max opts.baseDelayMs opts.maxDelayMs := by
  rw [calc_eq_of_jitter_nonpos opts hf, calc_eq_of_jitter_nonpos opts hf]
  dsimp only
  have hfl : max 1 ⌊a⌋ ≤ max 1 ⌊b⌋ := max_le_max le_rfl (Int.floor_le_floor hab)
  have hk : (max 1 ⌊a⌋ - 1).toNat ≤ (max 1 ⌊b⌋ - 1).toNat := by omega
  have hpow : (2:ℚ) ^ (max 1 ⌊a⌋ - 1).toNat ≤ 2 ^ (max 1 ⌊b⌋ - 1).toNat :=
    pow_le_pow_right₀ (by norm_num) hk
  constructor
  · exact max_le_max le_rfl
      (min_le_min (mul_le_mul_of_nonneg_left hpow hb.le) le_rfl)
  · exact max_le (le_max_of_le_left hb.le)
      (le_trans (min_le_right _ _) (le_max_right _ _))

/-- C10 witness: the monotonicity theorem instantiated at attempts 2 and 3
with `jitterFactor = 0`. -/
theorem monotone_and_bounded_witness :
    (calculateExponentialBackoff 2 { jitterFactor := 0 } 0).delayMs
      ≤ (calculateExponentialBackoff 3 { jitterFactor := 0 } 0).delayMs
    ∧ (calculateExponentialBackoff 3 { jitterFactor := 0 } 0).delayMs
      ≤ max ({ jitterFactor := 0 } : BackoffOptions).baseDelayMs
          ({ jitterFactor := 0 } : BackoffOptions).maxDelayMs :=
  monotone_and_bounded { jitterFactor := 0 } (by norm_num) le_rfl 2 3 (by norm_num) 0 0

end Backoff
